import Mathlib

/-!
Verification development for the RSI backtesting tool.

The core computational pipeline of the repository lives in
`subcode/calculation.py` (indicator, signals, simulator, metrics) and the
input validation plus run orchestration in `subcode/app.py`
(`BacktestApp.run_backtest`).  This file gives a shallow embedding of that
pipeline: pandas Series of float prices become `List ℚ`, float arithmetic
becomes exact rational arithmetic, and the day-by-day simulation loop becomes
an explicit fold carrying the ledger state.  IEEE special values produced by
the pandas expressions are translated by case analysis where they arise and
are noted at the definition concerned.
-/

namespace RSIBacktest

/-! ## Indicator engine: `calculate_rsi` (calculation.py)

`delta = data['Close'].diff()` has NaN at index 0; `delta.where(delta > 0, 0)`
maps that NaN row to 0 already (NaN > 0 is False), and `.fillna(0)` keeps it 0.
So the gain (loss) series has a leading 0 followed by the positive parts of the
consecutive differences. -/

/-- `gain = (delta.where(delta > 0, 0)).fillna(0)`: per-step positive price
change, with 0 at step 0 where the difference is undefined. -/
def gainList : List ℚ → List ℚ
  | [] => []
  | c :: cs => 0 :: List.zipWith (fun next prev => max (next - prev) 0) cs (c :: cs)

/-- `loss = (-delta.where(delta < 0, 0)).fillna(0)`: per-step price drop as a
positive value, with 0 at step 0. -/
def lossList : List ℚ → List ℚ
  | [] => []
  | c :: cs => 0 :: List.zipWith (fun next prev => max (prev - next) 0) cs (c :: cs)

/-- The trailing window `xs[t+1-period .. t]` (clamped at the left edge) used by
`rolling(window=period, min_periods=1)`. -/
def windowAt (period : ℕ) (xs : List ℚ) (t : ℕ) : List ℚ :=
  (xs.take (t + 1)).drop (t + 1 - period)

/-- `xs.rolling(window=period, min_periods=1).mean()` evaluated at index `t`. -/
def rollingMean (period : ℕ) (xs : List ℚ) (t : ℕ) : ℚ :=
  let w := windowAt period xs t
  w.sum / (w.length : ℚ)

/-- One entry of `100 - (100 / (1 + avg_gain/avg_loss))` followed by
`.fillna(50)`, evaluated at index `t`.  Float semantics of the source: when
`avg_loss = 0` and `avg_gain > 0` the quotient is `+inf`, so the expression
evaluates to `100 - 0 = 100` and is NOT touched by `fillna`; only the `0/0`
case yields NaN and is replaced by the neutral 50. -/
def rsiAt (period : ℕ) (closes : List ℚ) (t : ℕ) : ℚ :=
  let ag := rollingMean period (gainList closes) t
  let al := rollingMean period (lossList closes) t
  if al = 0 then (if ag = 0 then 50 else 100)
  else 100 - 100 / (1 + ag / al)

/-- `calculate_rsi`: the RSI column added to the frame, one value per close. -/
def calculate_rsi (period : ℕ) (closes : List ℚ) : List ℚ :=
  (List.range closes.length).map (rsiAt period closes)

/-! ## Signal generator: `generate_signals` (calculation.py)

`data['Signal'] = 0`, then 1 is assigned where
`(RSI > oversold) & (RSI.shift(1) <= oversold)` and afterwards -1 is assigned
where `(RSI < overbought) & (RSI.shift(1) >= overbought)`, so the sell
assignment overwrites the buy assignment on any row satisfying both.  At row 0
`shift(1)` is NaN and both comparisons are False. -/

/-- The signal assigned at index `t` of the RSI series. -/
def signalAt (rsi_overbought rsi_oversold : ℚ) (rsi : List ℚ) : ℕ → ℤ
  | 0 => 0
  | t + 1 =>
    let cur := rsi.getD (t + 1) 0
    let prev := rsi.getD t 0
    if cur < rsi_overbought ∧ rsi_overbought ≤ prev then -1
    else if rsi_oversold < cur ∧ prev ≤ rsi_oversold then 1
    else 0

/-- `generate_signals`: the Signal column, one entry per RSI value. -/
def generate_signals (rsi_overbought rsi_oversold : ℚ) (rsi : List ℚ) : List ℤ :=
  (List.range rsi.length).map (signalAt rsi_overbought rsi_oversold rsi)

/-! ## Strategy simulator: `backtest_strategy` (calculation.py) -/

/-- One row of the simulator's per-day output together with the ledger state it
leaves behind (`cash`, `holdings`, running `total_fees`).  `position` is what
the iteration appends to the `positions` list: `some` a value when an append
runs, and `none` for the flat-Buy branch with no affordable share, where the
source skips `positions.append` entirely (the inner `if shares > 0` guards the
append and the outer `if` already matched, so the `else` branch does not
run). -/
structure StepRecord where
  cash : ℚ
  holdings : ℤ
  totalFees : ℚ
  portfolioValue : ℚ
  position : Option ℤ
  trade : ℤ
  dailyReturn : ℚ
  deriving Repr, DecidableEq, Inhabited

/-- The body of the `for i in range(len(data))` loop: one day of simulation.
`shares = int(cash // price)` is the floor of the quotient.  The daily return
guards against a zero previous portfolio value exactly as the source does. -/
def backtestStep (fee_percentage price : ℚ) (signal : ℤ) (cash : ℚ)
    (holdings : ℤ) (totalFees : ℚ) (prevPos : ℤ) (prevPV : ℚ) : StepRecord :=
  let traded : ℚ × ℤ × ℚ × Option ℤ × ℤ :=
    if signal = 1 ∧ holdings = 0 then
      let shares := ⌊cash / price⌋
      if 0 < shares then
        let fee := shares * price * fee_percentage
        (cash - (shares * price + fee), holdings + shares, totalFees + fee,
          some 1, 1)
      else
        (cash, holdings, totalFees, none, 0)
    else if signal = -1 ∧ 0 < holdings then
      let fee := holdings * price * fee_percentage
      (cash + (holdings * price - fee), 0, totalFees + fee, some 0, -1)
    else
      (cash, holdings, totalFees, some prevPos, 0)
  let cash' := traded.1
  let holdings' := traded.2.1
  let fees' := traded.2.2.1
  let pos' := traded.2.2.2.1
  let trade := traded.2.2.2.2
  let pv := cash' + (holdings' : ℚ) * price
  let ret := if prevPV ≠ 0 then (pv - prevPV) / prevPV else 0
  ⟨cash', holdings', fees', pv, pos', trade, ret⟩

/-- The simulation loop: walks the close and signal columns in lockstep,
threading cash, holdings, total fees, the last appended position (the value of
`positions[-1] if positions else 0`, so it is updated only when an append
actually runs) and the previous portfolio value. -/
def backtestAux (fee_percentage : ℚ) :
    List ℚ → List ℤ → ℚ → ℤ → ℚ → ℤ → ℚ → List StepRecord
  | price :: ps, signal :: ss, cash, holdings, fees, prevPos, prevPV =>
    let r := backtestStep fee_percentage price signal cash holdings fees prevPos prevPV
    r :: backtestAux fee_percentage ps ss r.cash r.holdings r.totalFees
        (r.position.getD prevPos) r.portfolioValue
  | _, _, _, _, _, _, _ => []

/-- The rows of per-day values produced by the simulation loop of
`backtest_strategy`: initial state is full cash, no holdings, no fees, an
empty positions list (its `positions[-1] if positions else 0` carry starts at
0) and `prev_portfolio_value = initial_capital`. -/
def backtestRows (closes : List ℚ) (signals : List ℤ)
    (initial_capital fee_percentage : ℚ) : List StepRecord :=
  backtestAux fee_percentage closes signals initial_capital 0 0 0 initial_capital

/-- The `positions` list actually built by the loop: one entry per executed
append.  It is shorter than the frame exactly when some flat Buy could not
afford a single share. -/
def positionsColumn (closes : List ℚ) (signals : List ℤ)
    (initial_capital fee_percentage : ℚ) : List ℤ :=
  (backtestRows closes signals initial_capital fee_percentage).filterMap
    StepRecord.position

/-- `backtest_strategy`: the loop followed by the final column assignments.
`data['Portfolio Value']`, `data['Trades']` and `data['Strategy Daily Return']`
always carry one entry per row, but `data['Positions'] = positions` raises a
pandas length-mismatch `ValueError` whenever the positions list is shorter
than the frame; the uncaught raise is modelled as `Except.error` with a fixed
message. -/
def backtest_strategy (closes : List ℚ) (signals : List ℤ)
    (initial_capital fee_percentage : ℚ) : Except String (List StepRecord) :=
  let rows := backtestRows closes signals initial_capital fee_percentage
  if rows.length = closes.length ∧
      (positionsColumn closes signals initial_capital fee_percentage).length =
        closes.length then
    Except.ok rows
  else Except.error "Length of values does not match length of index"

/-! ## Performance analyzer: `calculate_performance_metrics` (calculation.py) -/

/-- Maximum of a list (pandas `.max()` over a nonempty window). -/
def listMax : List ℚ → ℚ
  | [] => 0
  | x :: xs => xs.foldl max x

/-- Minimum of a list (pandas `.min()` over a nonempty series). -/
def listMin : List ℚ → ℚ
  | [] => 0
  | x :: xs => xs.foldl min x

/-- `total_return = data['Portfolio Value'].iloc[-1] / initial_capital - 1`. -/
def total_return (portfolioValues : List ℚ) (initial_capital : ℚ) : ℚ :=
  (portfolioValues.getLastD 0) / initial_capital - 1

/-- `drawdown = (pv - pv.expanding(min_periods=1).max()) / (expanding max)`
evaluated at index `t`. -/
def drawdownAt (portfolioValues : List ℚ) (t : ℕ) : ℚ :=
  let m := listMax (portfolioValues.take (t + 1))
  (portfolioValues.getD t 0 - m) / m

/-- `max_drawdown = drawdown.min()`. -/
def max_drawdown (portfolioValues : List ℚ) : ℚ :=
  listMin ((List.range portfolioValues.length).map (drawdownAt portfolioValues))

/-- `xs.mean()` (only consulted on series of length at least 2 here). -/
def seriesMean (xs : List ℚ) : ℚ := xs.sum / (xs.length : ℚ)

/-- pandas `xs.std()` squared: the sample variance with `ddof=1`.  `none`
models the NaN that pandas returns for series of fewer than two points. -/
def sampleVariance (xs : List ℚ) : Option ℚ :=
  if xs.length ≤ 1 then none
  else some ((xs.map (fun x => (x - seriesMean xs) ^ 2)).sum / ((xs.length : ℚ) - 1))

/-- `strategy_volatility = strategy_daily_returns.std() * np.sqrt(252)`, an
irrational real in general; `none` is the NaN case propagated from `std`. -/
noncomputable def strategy_volatility (dailyReturns : List ℚ) : Option ℝ :=
  (sampleVariance dailyReturns).map (fun v => Real.sqrt (v : ℝ) * Real.sqrt 252)

/-- `(mean*252 - risk_free_rate) / volatility if volatility != 0 else 0` with
`risk_free_rate = 0.01`; a NaN volatility (`none`) makes the quotient NaN. -/
noncomputable def sharpe_ratio (dailyReturns : List ℚ) : Option ℝ :=
  (strategy_volatility dailyReturns).map (fun vol =>
    if vol ≠ 0 then ((seriesMean dailyReturns : ℝ) * 252 - 1 / 100) / vol else 0)

/-! ## Run orchestration: `BacktestApp.run_backtest` (app.py)

The GUI method validates the four numeric inputs in order, raising (and
returning after an error dialog) on the first violation; only then does it
fetch data, return on an empty frame, and otherwise run the indicator, signal,
simulation and metrics pipeline.  The external data provider is modelled as
the list of closes it would deliver, passed as an argument: an outcome that is
independent of that argument was decided before any retrieved data was
consulted. -/

/-- Outcome of one `run_backtest` invocation.  `raised` models an exception
escaping the method: the `try/except` at the top only wraps input parsing, so
a `ValueError` thrown later by the column assignment propagates uncaught. -/
inductive RunOutcome where
  | inputError : String → RunOutcome
  | noData : RunOutcome
  | success : List StepRecord → RunOutcome
  | raised : String → RunOutcome
  deriving DecidableEq

/-- The validation ladder at the top of `run_backtest`: first failing check
wins, mirroring the `raise ValueError` order in the source.  The fee entry is
divided by 100 before its sign check, as in the source. -/
def validateParams (initial_capital fee_entry rsi_overbought rsi_oversold : ℚ) :
    Option String :=
  if initial_capital ≤ 0 then some "Starting capital must be positive."
  else if fee_entry / 100 < 0 then some "Fee percentage cannot be negative."
  else if ¬(0 < rsi_overbought ∧ rsi_overbought < 100) then
    some "RSI Overbought level must be between 0 and 100."
  else if ¬(0 < rsi_oversold ∧ rsi_oversold < 100) then
    some "RSI Oversold level must be between 0 and 100."
  else if rsi_overbought ≤ rsi_oversold then
    some "RSI Oversold level must be less than RSI Overbought level."
  else none

/-- `run_backtest` with the data provider's answer supplied as `fetched`. -/
def run_backtest (initial_capital fee_entry rsi_overbought rsi_oversold : ℚ)
    (fetched : List ℚ) : RunOutcome :=
  match validateParams initial_capital fee_entry rsi_overbought rsi_oversold with
  | some msg => RunOutcome.inputError msg
  | none =>
    if fetched.isEmpty then RunOutcome.noData
    else
      let rsi := calculate_rsi 14 fetched
      let signals := generate_signals rsi_overbought rsi_oversold rsi
      match backtest_strategy fetched signals initial_capital (fee_entry / 100) with
      | Except.ok records => RunOutcome.success records
      | Except.error msg => RunOutcome.raised msg

/-! ## Basic facts about the simulation fold -/

/-- Whatever branch executes, the recorded portfolio value of a step is its
post-trade cash plus post-trade holdings times the day's close. -/
lemma backtestStep_pv (f p : ℚ) (s : ℤ) (c : ℚ) (h : ℤ) (tf : ℚ) (pp : ℤ) (pv : ℚ) :
    (backtestStep f p s c h tf pp pv).portfolioValue =
      (backtestStep f p s c h tf pp pv).cash +
        ((backtestStep f p s c h tf pp pv).holdings : ℚ) * p := rfl

/-- The simulator emits exactly one record per day it can read from both
columns. -/
lemma backtestAux_length (f : ℚ) : ∀ (ps : List ℚ) (ss : List ℤ) (c : ℚ) (h : ℤ)
    (tf : ℚ) (pp : ℤ) (pv : ℚ),
    (backtestAux f ps ss c h tf pp pv).length = min ps.length ss.length
  | [], [], _, _, _, _, _ => rfl
  | [], _ :: _, _, _, _, _, _ => rfl
  | _ :: _, [], _, _, _, _, _ => rfl
  | p :: ps, s :: ss, c, h, tf, pp, pv => by
    simp [backtestAux, backtestAux_length f ps ss]
    omega

/-- Pointwise form of the ledger identity along the whole run. -/
lemma backtestAux_pv_getD (f : ℚ) : ∀ (ps : List ℚ) (ss : List ℤ) (c : ℚ) (h : ℤ)
    (tf : ℚ) (pp : ℤ) (pv : ℚ) (t : ℕ),
    t < (backtestAux f ps ss c h tf pp pv).length →
    ((backtestAux f ps ss c h tf pp pv).getD t default).portfolioValue =
      ((backtestAux f ps ss c h tf pp pv).getD t default).cash +
        (((backtestAux f ps ss c h tf pp pv).getD t default).holdings : ℚ) *
          ps.getD t 0
  | p :: ps, s :: ss, c, h, tf, pp, pv, 0, _ => by
    simpa [backtestAux] using backtestStep_pv f p s c h tf pp pv
  | p :: ps, s :: ss, c, h, tf, pp, pv, t + 1, ht => by
    have ht' : t <
        (backtestAux f ps ss (backtestStep f p s c h tf pp pv).cash
          (backtestStep f p s c h tf pp pv).holdings
          (backtestStep f p s c h tf pp pv).totalFees
          ((backtestStep f p s c h tf pp pv).position.getD pp)
          (backtestStep f p s c h tf pp pv).portfolioValue).length := by
      simpa [backtestAux] using ht
    simpa [backtestAux] using
      backtestAux_pv_getD f ps ss (backtestStep f p s c h tf pp pv).cash
        (backtestStep f p s c h tf pp pv).holdings
        (backtestStep f p s c h tf pp pv).totalFees
        ((backtestStep f p s c h tf pp pv).position.getD pp)
        (backtestStep f p s c h tf pp pv).portfolioValue t ht'

/-- C2: in every simulation run, for every step `t`, the recorded portfolio
value equals cash at `t` plus shares held at `t` times the closing price at
`t`. -/
theorem portfolio_value_ledger_identity (closes : List ℚ) (signals : List ℤ)
    (initial_capital fee_percentage : ℚ) (t : ℕ)
    (ht : t < (backtestRows closes signals initial_capital fee_percentage).length) :
    ((backtestRows closes signals initial_capital fee_percentage).getD t
        default).portfolioValue =
      ((backtestRows closes signals initial_capital fee_percentage).getD t
          default).cash +
        (((backtestRows closes signals initial_capital fee_percentage).getD t
            default).holdings : ℚ) * closes.getD t 0 :=
  backtestAux_pv_getD fee_percentage closes signals initial_capital 0 0 0
    initial_capital t ht

/-- Witness for C2 on a concrete one-day run. -/
theorem portfolio_value_ledger_identity_witness :
    0 < (backtestRows [2] [1] 10 0).length ∧
      ((backtestRows [2] [1] 10 0).getD 0 default).portfolioValue =
        ((backtestRows [2] [1] 10 0).getD 0 default).cash +
          (((backtestRows [2] [1] 10 0).getD 0 default).holdings : ℚ) *
            ([2] : List ℚ).getD 0 0 :=
  ⟨by norm_num [backtestRows, backtestAux, backtestStep],
    portfolio_value_ledger_identity [2] [1] 10 0 0
      (by norm_num [backtestRows, backtestAux, backtestStep])⟩

/-- C1 (bug evidence): the claim's own "silent no-trade" case crashes the
source function.  On closes `[3]`, signal column `[1]` (a Buy while flat),
capital 1 and fee 0, `shares = int(1 // 3) = 0`, so the loop appends nothing
to `positions` while emitting a full row of the other columns; the final
`data['Positions'] = positions` then raises a length-mismatch `ValueError`
(0 entries against 1 row) instead of returning normally. -/
theorem flat_buy_positions_value_error :
    ⌊(1 : ℚ) / 3⌋ = 0 ∧
    ((backtestRows [3] [1] 1 0).map StepRecord.portfolioValue).length = 1 ∧
    (positionsColumn [3] [1] 1 0).length = 0 ∧
    backtest_strategy [3] [1] 1 0 =
      Except.error "Length of values does not match length of index" := by
  refine ⟨by norm_num, ?_, ?_, ?_⟩ <;>
    norm_num [backtest_strategy, positionsColumn, backtestRows, backtestAux,
      backtestStep]

/-- A single day never refunds fees: with a non-negative fee rate and a
positive close, the running fee total can only grow. -/
lemma backtestStep_fees_ge (f p : ℚ) (s : ℤ) (c : ℚ) (h : ℤ) (tf : ℚ) (pp : ℤ)
    (pv : ℚ) (hf : 0 ≤ f) (hp : 0 < p) :
    tf ≤ (backtestStep f p s c h tf pp pv).totalFees := by
  by_cases h1 : s = 1 ∧ h = 0
  · by_cases h2 : 0 < ⌊c / p⌋
    · have hsh : (0 : ℚ) ≤ (⌊c / p⌋ : ℚ) := by exact_mod_cast h2.le
      have hnn : 0 ≤ (⌊c / p⌋ : ℚ) * p * f := mul_nonneg (mul_nonneg hsh hp.le) hf
      simp [backtestStep, h1.1, h1.2, h2]
      linarith
    · simp [backtestStep, h1.1, h1.2, h2]
  · by_cases h3 : s = -1 ∧ 0 < h
    · have hh : (0 : ℚ) ≤ (h : ℚ) := by exact_mod_cast h3.2.le
      have hnn : 0 ≤ (h : ℚ) * p * f := mul_nonneg (mul_nonneg hh hp.le) hf
      simp [backtestStep, h1, h3.1, h3.2]
      linarith
    · simp [backtestStep, h1, h3]

/-- The running fee total of every emitted record dominates the fee total fed
into the fold. -/
lemma backtestAux_fees_ge_input (f : ℚ) (hf : 0 ≤ f) :
    ∀ (ps : List ℚ) (ss : List ℤ) (c : ℚ) (h : ℤ) (tf : ℚ) (pp : ℤ) (pv : ℚ),
    (∀ x ∈ ps, 0 < x) → ∀ t, t < (backtestAux f ps ss c h tf pp pv).length →
    tf ≤ ((backtestAux f ps ss c h tf pp pv).getD t default).totalFees
  | p :: ps, s :: ss, c, h, tf, pp, pv, hpos, 0, _ => by
    simpa [backtestAux] using
      backtestStep_fees_ge f p s c h tf pp pv hf (hpos p (by simp))
  | p :: ps, s :: ss, c, h, tf, pp, pv, hpos, t + 1, ht => by
    have ht' : t <
        (backtestAux f ps ss (backtestStep f p s c h tf pp pv).cash
          (backtestStep f p s c h tf pp pv).holdings
          (backtestStep f p s c h tf pp pv).totalFees
          ((backtestStep f p s c h tf pp pv).position.getD pp)
          (backtestStep f p s c h tf pp pv).portfolioValue).length := by
      simpa [backtestAux] using ht
    have step := backtestStep_fees_ge f p s c h tf pp pv hf (hpos p (by simp))
    have rest := backtestAux_fees_ge_input f hf ps ss
      (backtestStep f p s c h tf pp pv).cash
      (backtestStep f p s c h tf pp pv).holdings
      (backtestStep f p s c h tf pp pv).totalFees
      ((backtestStep f p s c h tf pp pv).position.getD pp)
      (backtestStep f p s c h tf pp pv).portfolioValue
      (fun x hx => hpos x (List.mem_cons_of_mem p hx)) t ht'
    have := le_trans step rest
    simpa [backtestAux] using this

/-- Monotonicity of the running fee total between any two days of the fold. -/
lemma backtestAux_fees_mono (f : ℚ) (hf : 0 ≤ f) :
    ∀ (ps : List ℚ) (ss : List ℤ) (c : ℚ) (h : ℤ) (tf : ℚ) (pp : ℤ) (pv : ℚ),
    (∀ x ∈ ps, 0 < x) → ∀ t t', t ≤ t' →
    t' < (backtestAux f ps ss c h tf pp pv).length →
    ((backtestAux f ps ss c h tf pp pv).getD t default).totalFees ≤
      ((backtestAux f ps ss c h tf pp pv).getD t' default).totalFees
  | p :: ps, s :: ss, c, h, tf, pp, pv, hpos, 0, 0, _, _ => le_refl _
  | p :: ps, s :: ss, c, h, tf, pp, pv, hpos, 0, u + 1, _, ht' => by
    have hu : u <
        (backtestAux f ps ss (backtestStep f p s c h tf pp pv).cash
          (backtestStep f p s c h tf pp pv).holdings
          (backtestStep f p s c h tf pp pv).totalFees
          ((backtestStep f p s c h tf pp pv).position.getD pp)
          (backtestStep f p s c h tf pp pv).portfolioValue).length := by
      simpa [backtestAux] using ht'
    have rest := backtestAux_fees_ge_input f hf ps ss
      (backtestStep f p s c h tf pp pv).cash
      (backtestStep f p s c h tf pp pv).holdings
      (backtestStep f p s c h tf pp pv).totalFees
      ((backtestStep f p s c h tf pp pv).position.getD pp)
      (backtestStep f p s c h tf pp pv).portfolioValue
      (fun x hx => hpos x (List.mem_cons_of_mem p hx)) u hu
    simpa [backtestAux] using rest
  | p :: ps, s :: ss, c, h, tf, pp, pv, hpos, v + 1, u + 1, htt, ht' => by
    have hu : u <
        (backtestAux f ps ss (backtestStep f p s c h tf pp pv).cash
          (backtestStep f p s c h tf pp pv).holdings
          (backtestStep f p s c h tf pp pv).totalFees
          ((backtestStep f p s c h tf pp pv).position.getD pp)
          (backtestStep f p s c h tf pp pv).portfolioValue).length := by
      simpa [backtestAux] using ht'
    have rest := backtestAux_fees_mono f hf ps ss
      (backtestStep f p s c h tf pp pv).cash
      (backtestStep f p s c h tf pp pv).holdings
      (backtestStep f p s c h tf pp pv).totalFees
      ((backtestStep f p s c h tf pp pv).position.getD pp)
      (backtestStep f p s c h tf pp pv).portfolioValue
      (fun x hx => hpos x (List.mem_cons_of_mem p hx)) v u
      (Nat.le_of_succ_le_succ htt) hu
    simpa [backtestAux] using rest

/-- C9: with a non-negative fee rate and positive closes, the cumulative fee
total recorded by the simulator is non-decreasing over the steps of the run. -/
theorem cumulative_fees_monotone (closes : List ℚ) (signals : List ℤ)
    (initial_capital fee_percentage : ℚ) (hf : 0 ≤ fee_percentage)
    (hpos : ∀ x ∈ closes, 0 < x) (t t' : ℕ) (htt : t ≤ t')
    (ht' : t' < (backtestRows closes signals initial_capital fee_percentage).length) :
    ((backtestRows closes signals initial_capital fee_percentage).getD t
        default).totalFees ≤
      ((backtestRows closes signals initial_capital fee_percentage).getD t'
          default).totalFees :=
  backtestAux_fees_mono fee_percentage hf closes signals initial_capital 0 0 0
    initial_capital hpos t t' htt ht'

/-- Witness for C9 on a concrete two-day run with a buy on day one. -/
theorem cumulative_fees_monotone_witness :
    (0 : ℚ) ≤ 1 / 10 ∧ (∀ x ∈ ([2, 2] : List ℚ), 0 < x) ∧
      1 < (backtestRows [2, 2] [1, 0] 10 (1 / 10)).length ∧
      ((backtestRows [2, 2] [1, 0] 10 (1 / 10)).getD 0 default).totalFees ≤
        ((backtestRows [2, 2] [1, 0] 10 (1 / 10)).getD 1 default).totalFees :=
  ⟨by norm_num, by norm_num,
    by norm_num [backtestRows, backtestAux, backtestStep],
    cumulative_fees_monotone [2, 2] [1, 0] 10 (1 / 10) (by norm_num)
      (by norm_num) 0 1 (by norm_num)
      (by norm_num [backtestRows, backtestAux, backtestStep])⟩

/-- With a zero fee rate a day of trading preserves non-negativity of cash and
holdings: a buy spends `floor(cash/price)*price ≤ cash` and a sell only adds
cash. -/
lemma backtestStep_zero_fee_nonneg (p : ℚ) (s : ℤ) (c : ℚ) (h : ℤ) (tf : ℚ)
    (pp : ℤ) (pv : ℚ) (hp : 0 < p) (hc : 0 ≤ c) (hh : 0 ≤ h) :
    0 ≤ (backtestStep 0 p s c h tf pp pv).cash ∧
      0 ≤ (backtestStep 0 p s c h tf pp pv).holdings := by
  by_cases h1 : s = 1 ∧ h = 0
  · by_cases h2 : 0 < ⌊c / p⌋
    · have hfl : (⌊c / p⌋ : ℚ) ≤ c / p := Int.floor_le _
      have hmul : (⌊c / p⌋ : ℚ) * p ≤ c := by
        calc (⌊c / p⌋ : ℚ) * p ≤ c / p * p :=
              mul_le_mul_of_nonneg_right hfl hp.le
          _ = c := div_mul_cancel₀ c hp.ne'
      constructor
      · simp [backtestStep, h1.1, h1.2, h2]
        linarith
      · simp [backtestStep, h1.1, h1.2, h2]
        exact h2.le
    · constructor
      · simpa [backtestStep, h1.1, h1.2, h2] using hc
      · simp [backtestStep, h1.1, h1.2, h2]
  · by_cases h3 : s = -1 ∧ 0 < h
    · have hhp : 0 ≤ (h : ℚ) * p :=
        mul_nonneg (by exact_mod_cast hh) hp.le
      constructor
      · simp [backtestStep, h1, h3.1, h3.2]
        linarith
      · simp [backtestStep, h1, h3.1, h3.2]
    · constructor
      · simpa [backtestStep, h1, h3] using hc
      · simpa [backtestStep, h1, h3] using hh

/-- Invariant propagation: with fee 0, every record of the fold keeps
non-negative cash (and non-negative holdings). -/
lemma backtestAux_zero_fee_cash_nonneg :
    ∀ (ps : List ℚ) (ss : List ℤ) (c : ℚ) (h : ℤ) (tf : ℚ) (pp : ℤ) (pv : ℚ),
    (∀ x ∈ ps, 0 < x) → 0 ≤ c → 0 ≤ h →
    ∀ t, t < (backtestAux 0 ps ss c h tf pp pv).length →
    0 ≤ ((backtestAux 0 ps ss c h tf pp pv).getD t default).cash
  | p :: ps, s :: ss, c, h, tf, pp, pv, hpos, hc, hh, 0, _ => by
    simpa [backtestAux] using
      (backtestStep_zero_fee_nonneg p s c h tf pp pv (hpos p (by simp)) hc hh).1
  | p :: ps, s :: ss, c, h, tf, pp, pv, hpos, hc, hh, t + 1, ht => by
    have hstep := backtestStep_zero_fee_nonneg p s c h tf pp pv
      (hpos p (by simp)) hc hh
    have ht' : t <
        (backtestAux 0 ps ss (backtestStep 0 p s c h tf pp pv).cash
          (backtestStep 0 p s c h tf pp pv).holdings
          (backtestStep 0 p s c h tf pp pv).totalFees
          ((backtestStep 0 p s c h tf pp pv).position.getD pp)
          (backtestStep 0 p s c h tf pp pv).portfolioValue).length := by
      simpa [backtestAux] using ht
    have rest := backtestAux_zero_fee_cash_nonneg ps ss
      (backtestStep 0 p s c h tf pp pv).cash
      (backtestStep 0 p s c h tf pp pv).holdings
      (backtestStep 0 p s c h tf pp pv).totalFees
      ((backtestStep 0 p s c h tf pp pv).position.getD pp)
      (backtestStep 0 p s c h tf pp pv).portfolioValue
      (fun x hx => hpos x (List.mem_cons_of_mem p hx)) hstep.1 hstep.2 t ht'
    simpa [backtestAux] using rest

/-- C10: with strictly positive closes and positive initial capital, a
zero-fee run keeps cash non-negative after every step; with a positive fee
rate the code does not guarantee this, since the buy fee is deducted after
sizing shares from pre-fee cash — on closes `[100, 50]`, signals `[1, 0]`,
capital 100 and fee rate 1/10 the day-0 cash is −10. -/
theorem zero_fee_cash_nonneg (closes : List ℚ) (signals : List ℤ)
    (initial_capital : ℚ) (hpos : ∀ x ∈ closes, 0 < x)
    (hcap : 0 < initial_capital) (t : ℕ)
    (ht : t < (backtestRows closes signals initial_capital 0).length) :
    0 ≤ ((backtestRows closes signals initial_capital 0).getD t default).cash ∧
      ((backtestRows [100, 50] [1, 0] 100 (1 / 10)).getD 0 default).cash = -10 :=
  ⟨backtestAux_zero_fee_cash_nonneg closes signals initial_capital 0 0 0
      initial_capital hpos hcap.le le_rfl t ht,
    by norm_num [backtestRows, backtestAux, backtestStep]⟩

/-- Witness for C10 on a concrete zero-fee run that buys on day 0. -/
theorem zero_fee_cash_nonneg_witness :
    (∀ x ∈ ([2, 1] : List ℚ), 0 < x) ∧ (0 : ℚ) < 10 ∧
      1 < (backtestRows [2, 1] [1, 0] 10 0).length ∧
      (0 ≤ ((backtestRows [2, 1] [1, 0] 10 0).getD 1 default).cash ∧
        ((backtestRows [100, 50] [1, 0] 100 (1 / 10)).getD 0 default).cash = -10) :=
  ⟨by norm_num, by norm_num,
    by norm_num [backtestRows, backtestAux, backtestStep],
    zero_fee_cash_nonneg [2, 1] [1, 0] 10 (by norm_num) (by norm_num) 1
      (by norm_num [backtestRows, backtestAux, backtestStep])⟩

/-- `getD` into a column built by mapping a function over row indices. -/
lemma range_map_getD {α : Type} (f : ℕ → α) (n t : ℕ) (d : α) (ht : t < n) :
    ((List.range n).map f).getD t d = f t := by
  rw [List.getD_eq_getElem _ _ (by simpa using ht)]
  simp [List.getElem_map, List.getElem_range]

/-- C3: with thresholds `0 < oversold < overbought < 100`, the generated
signal is Buy at `t` iff the RSI strictly exceeds the oversold level while the
previous RSI was at most that level, Sell at `t` iff the RSI is strictly below
the overbought level while the previous RSI was at least that level, step 0
never signals, and no step is both Buy and Sell. -/
theorem generate_signals_characterization (rsi_overbought rsi_oversold : ℚ)
    (rsi : List ℚ) (hos : 0 < rsi_oversold) (hoo : rsi_oversold < rsi_overbought)
    (hob : rsi_overbought < 100) (t : ℕ) (ht : t < rsi.length) :
    ((generate_signals rsi_overbought rsi_oversold rsi).getD t 0 = 1 ↔
      0 < t ∧ rsi_oversold < rsi.getD t 0 ∧ rsi.getD (t - 1) 0 ≤ rsi_oversold) ∧
    ((generate_signals rsi_overbought rsi_oversold rsi).getD t 0 = -1 ↔
      0 < t ∧ rsi.getD t 0 < rsi_overbought ∧ rsi_overbought ≤ rsi.getD (t - 1) 0) ∧
    (t = 0 → (generate_signals rsi_overbought rsi_oversold rsi).getD t 0 = 0) ∧
    ¬((generate_signals rsi_overbought rsi_oversold rsi).getD t 0 = 1 ∧
      (generate_signals rsi_overbought rsi_oversold rsi).getD t 0 = -1) := by
  have hget : (generate_signals rsi_overbought rsi_oversold rsi).getD t 0 =
      signalAt rsi_overbought rsi_oversold rsi t :=
    range_map_getD _ _ _ _ ht
  rw [hget]
  match t with
  | 0 =>
    have h0 : signalAt rsi_overbought rsi_oversold rsi 0 = 0 := rfl
    rw [h0]
    refine ⟨?_, ?_, fun _ => rfl, ?_⟩
    · constructor
      · intro h; exact absurd h (by decide)
      · rintro ⟨h, -⟩; exact absurd h (by decide)
    · constructor
      · intro h; exact absurd h (by decide)
      · rintro ⟨h, -⟩; exact absurd h (by decide)
    · rintro ⟨h, -⟩; exact absurd h (by decide)
  | u + 1 =>
    simp only [signalAt, Nat.add_sub_cancel]
    by_cases hsell : rsi.getD (u + 1) 0 < rsi_overbought ∧
        rsi_overbought ≤ rsi.getD u 0
    · have hnbuy : ¬(rsi_oversold < rsi.getD (u + 1) 0 ∧
          rsi.getD u 0 ≤ rsi_oversold) := by
        rintro ⟨-, hb2⟩
        exact absurd (lt_of_lt_of_le hoo hsell.2) (not_lt.mpr hb2)
      rw [if_pos hsell]
      refine ⟨?_, ?_, ?_, ?_⟩
      · exact ⟨fun h => absurd h (by decide), fun h => absurd h.2 hnbuy⟩
      · exact ⟨fun _ => ⟨Nat.succ_pos u, hsell.1, hsell.2⟩, fun _ => rfl⟩
      · intro h; exact absurd h (Nat.succ_ne_zero u)
      · rintro ⟨h, -⟩; exact absurd h (by decide)
    · by_cases hbuy : rsi_oversold < rsi.getD (u + 1) 0 ∧
          rsi.getD u 0 ≤ rsi_oversold
      · rw [if_neg hsell, if_pos hbuy]
        refine ⟨?_, ?_, ?_, ?_⟩
        · exact ⟨fun _ => ⟨Nat.succ_pos u, hbuy.1, hbuy.2⟩, fun _ => rfl⟩
        · exact ⟨fun h => absurd h (by decide), fun h => absurd ⟨h.2.1, h.2.2⟩ hsell⟩
        · intro h; exact absurd h (Nat.succ_ne_zero u)
        · rintro ⟨-, h⟩; exact absurd h (by decide)
      · rw [if_neg hsell, if_neg hbuy]
        refine ⟨?_, ?_, ?_, ?_⟩
        · exact ⟨fun h => absurd h (by decide), fun h => absurd ⟨h.2.1, h.2.2⟩ hbuy⟩
        · exact ⟨fun h => absurd h (by decide), fun h => absurd ⟨h.2.1, h.2.2⟩ hsell⟩
        · intro _; rfl
        · rintro ⟨h, -⟩; exact absurd h (by decide)

/-- Witness for C3 on the RSI column `[20, 50]` with thresholds 70/30. -/
theorem generate_signals_characterization_witness :
    (0 : ℚ) < 30 ∧ (30 : ℚ) < 70 ∧ (70 : ℚ) < 100 ∧ 1 < ([20, 50] : List ℚ).length ∧
    (((generate_signals 70 30 [20, 50]).getD 1 0 = 1 ↔
        0 < 1 ∧ (30 : ℚ) < ([20, 50] : List ℚ).getD 1 0 ∧
          ([20, 50] : List ℚ).getD (1 - 1) 0 ≤ 30) ∧
      ((generate_signals 70 30 [20, 50]).getD 1 0 = -1 ↔
        0 < 1 ∧ ([20, 50] : List ℚ).getD 1 0 < 70 ∧
          (70 : ℚ) ≤ ([20, 50] : List ℚ).getD (1 - 1) 0) ∧
      (1 = 0 → (generate_signals 70 30 [20, 50]).getD 1 0 = 0) ∧
      ¬((generate_signals 70 30 [20, 50]).getD 1 0 = 1 ∧
        (generate_signals 70 30 [20, 50]).getD 1 0 = -1)) :=
  ⟨by norm_num, by norm_num, by norm_num, by norm_num,
    generate_signals_characterization 70 30 [20, 50] (by norm_num) (by norm_num)
      (by norm_num) 1 (by norm_num)⟩

/-! ## C4: degenerate-math defaults -/

/-- C4 counterexample: on closes `[1, 2]` the trailing average loss at step 1
is 0, yet the indicator value is 100, not the claimed neutral 50 — the pandas
quotient `avg_gain/0` with positive `avg_gain` is `+inf`, which `fillna(50)`
never touches. -/
theorem rsi_zero_avg_loss_counterexample :
    rollingMean 14 (lossList [(1 : ℚ), 2]) 1 = 0 ∧
    rsiAt 14 [(1 : ℚ), 2] 1 = 100 ∧
    calculate_rsi 14 [(1 : ℚ), 2] = [50, 100] ∧
    (100 : ℚ) ≠ 50 := by
  refine ⟨?_, ?_, ?_, by norm_num⟩
  · norm_num [rollingMean, windowAt, lossList]
  · norm_num [rsiAt, rollingMean, windowAt, lossList, gainList]
  · norm_num [calculate_rsi, rsiAt, rollingMean, windowAt, lossList, gainList,
      List.range_succ]

/-- C4 amended: at a step with zero trailing average loss the indicator is 50
when the trailing average gain is also 0 and 100 otherwise; and a zero
annualized volatility yields a Sharpe ratio of 0.  Neither case escapes the
total functions of this embedding. -/
theorem degenerate_defaults_amended (period : ℕ) (closes : List ℚ) (t : ℕ)
    (dailyReturns : List ℚ) :
    (rollingMean period (lossList closes) t = 0 →
      rsiAt period closes t =
        if rollingMean period (gainList closes) t = 0 then 50 else 100) ∧
    (strategy_volatility dailyReturns = some 0 →
      sharpe_ratio dailyReturns = some 0) := by
  constructor
  · intro hl
    by_cases hg : rollingMean period (gainList closes) t = 0
    · simp [rsiAt, hl, hg]
    · simp [rsiAt, hl, hg]
  · intro hv
    simp [sharpe_ratio, hv]

/-- Witness for the amended C4 with both antecedents realized concretely. -/
theorem degenerate_defaults_amended_witness :
    rollingMean 14 (lossList [(1 : ℚ), 2]) 1 = 0 ∧
    strategy_volatility [0, 0] = some 0 ∧
    rsiAt 14 [(1 : ℚ), 2] 1 =
      (if rollingMean 14 (gainList [(1 : ℚ), 2]) 1 = 0 then 50 else 100) ∧
    sharpe_ratio [0, 0] = some 0 := by
  have h1 : rollingMean 14 (lossList [(1 : ℚ), 2]) 1 = 0 := by
    norm_num [rollingMean, windowAt, lossList]
  have h2 : strategy_volatility [(0 : ℚ), 0] = some 0 := by
    simp [strategy_volatility, sampleVariance, seriesMean]
  exact ⟨h1, h2, (degenerate_defaults_amended 14 [1, 2] 1 [0, 0]).1 h1,
    (degenerate_defaults_amended 14 [1, 2] 1 [0, 0]).2 h2⟩

/-! ## C5: constant price series -/

/-- Zipping two constant lists with an operation that vanishes on the diagonal
gives a zero list. -/
lemma zipWith_replicate_zero (f : ℚ → ℚ → ℚ) (c : ℚ) (hf : f c c = 0) :
    ∀ n m, List.zipWith f (List.replicate n c) (List.replicate m c) =
      List.replicate (min n m) 0
  | 0, m => by simp
  | n + 1, 0 => by simp
  | n + 1, m + 1 => by
    rw [List.replicate_succ c, List.replicate_succ c, List.zipWith_cons_cons, hf,
      zipWith_replicate_zero f c hf n m, Nat.succ_min_succ, List.replicate_succ]

/-- A constant price series produces no gains. -/
lemma gainList_replicate (n : ℕ) (c : ℚ) :
    gainList (List.replicate n c) = List.replicate n 0 := by
  cases n with
  | zero => rfl
  | succ m =>
    rw [List.replicate_succ]
    simp only [gainList]
    rw [← List.replicate_succ, zipWith_replicate_zero _ c (by simp) m (m + 1)]
    rw [min_eq_left (Nat.le_succ m), ← List.replicate_succ]

/-- A constant price series produces no losses. -/
lemma lossList_replicate (n : ℕ) (c : ℚ) :
    lossList (List.replicate n c) = List.replicate n 0 := by
  cases n with
  | zero => rfl
  | succ m =>
    rw [List.replicate_succ]
    simp only [lossList]
    rw [← List.replicate_succ, zipWith_replicate_zero _ c (by simp) m (m + 1)]
    rw [min_eq_left (Nat.le_succ m), ← List.replicate_succ]

/-- A rolling mean over an all-zero series is 0 at every index. -/
lemma rollingMean_of_zeros (period t : ℕ) (xs : List ℚ) (h : ∀ x ∈ xs, x = 0) :
    rollingMean period xs t = 0 := by
  have hz : ∀ x ∈ windowAt period xs t, x = 0 := fun x hx =>
    h x (List.take_subset _ _ (List.drop_subset _ _ hx))
  simp [rollingMean, List.sum_eq_zero hz]

/-- On a constant series both trailing averages vanish, so the indicator sits
at the neutral default everywhere. -/
lemma rsiAt_replicate (period : ℕ) (n : ℕ) (c : ℚ) (t : ℕ) :
    rsiAt period (List.replicate n c) t = 50 := by
  have hg : rollingMean period (gainList (List.replicate n c)) t = 0 := by
    rw [gainList_replicate]
    exact rollingMean_of_zeros period t _ (fun x hx => List.eq_of_mem_replicate hx)
  have hl : rollingMean period (lossList (List.replicate n c)) t = 0 := by
    rw [lossList_replicate]
    exact rollingMean_of_zeros period t _ (fun x hx => List.eq_of_mem_replicate hx)
  simp [rsiAt, hg, hl]

/-- The full RSI column of a constant series is the constant 50 column. -/
lemma calculate_rsi_replicate (period n : ℕ) (c : ℚ) :
    calculate_rsi period (List.replicate n c) = List.replicate n 50 := by
  apply List.eq_replicate_iff.2
  constructor
  · simp [calculate_rsi]
  · intro b hb
    simp only [calculate_rsi, List.mem_map, List.mem_range] at hb
    obtain ⟨t, -, rfl⟩ := hb
    exact rsiAt_replicate period n c t

/-- `getD` into a constant column. -/
lemma getD_replicate (a d : ℚ) : ∀ (n t : ℕ), t < n →
    (List.replicate n a).getD t d = a
  | n + 1, 0, _ => rfl
  | n + 1, t + 1, h => by
    rw [List.replicate_succ, List.getD_cons_succ]
    exact getD_replicate a d n t (Nat.lt_of_succ_lt_succ h)

/-- A constant-50 indicator can never cross a threshold, whatever the
thresholds are. -/
lemma signalAt_replicate_50 (rsi_overbought rsi_oversold : ℚ) (n : ℕ) :
    ∀ t, t < n → signalAt rsi_overbought rsi_oversold (List.replicate n 50) t = 0
  | 0, _ => rfl
  | u + 1, h => by
    simp only [signalAt]
    rw [getD_replicate _ _ _ _ h, getD_replicate _ _ _ _ (Nat.lt_of_succ_lt h)]
    rw [if_neg, if_neg]
    · rintro ⟨h1, h2⟩; exact absurd h1 (not_lt.mpr h2)
    · rintro ⟨h1, h2⟩; exact absurd h1 (not_lt.mpr h2)

/-- No signal ever fires on a constant-50 indicator column. -/
lemma generate_signals_replicate_50 (rsi_overbought rsi_oversold : ℚ) (n : ℕ) :
    generate_signals rsi_overbought rsi_oversold (List.replicate n 50) =
      List.replicate n 0 := by
  apply List.eq_replicate_iff.2
  constructor
  · simp [generate_signals]
  · intro b hb
    simp only [generate_signals, List.mem_map, List.mem_range,
      List.length_replicate] at hb
    obtain ⟨t, ht, rfl⟩ := hb
    exact signalAt_replicate_50 rsi_overbought rsi_oversold n t ht

/-- A Hold day passes the ledger through untouched. -/
lemma backtestStep_signal_zero (f p c tf : ℚ) (h pp : ℤ) (pv : ℚ) :
    backtestStep f p 0 c h tf pp pv =
      ⟨c, h, tf, c + (h : ℚ) * p, some pp, 0,
        if pv ≠ 0 then (c + (h : ℚ) * p - pv) / pv else 0⟩ := by
  simp [backtestStep]

/-- With an all-Hold signal column and no initial holdings, the equity curve is
flat at the initial cash. -/
lemma backtestAux_all_hold (f : ℚ) : ∀ (ps : List ℚ) (n : ℕ) (c tf : ℚ)
    (pp : ℤ) (pv : ℚ),
    (backtestAux f ps (List.replicate n 0) c 0 tf pp pv).map
        StepRecord.portfolioValue = List.replicate (min ps.length n) c
  | [], n, c, tf, pp, pv => by simp [backtestAux]
  | p :: ps, 0, c, tf, pp, pv => by simp [backtestAux]
  | p :: ps, n + 1, c, tf, pp, pv => by
    rw [List.replicate_succ]
    simp only [backtestAux, backtestStep_signal_zero, List.map_cons]
    rw [backtestAux_all_hold f ps n]
    simp [List.replicate_succ, Nat.succ_min_succ]

/-- Folding `max` of a value over copies of itself changes nothing. -/
lemma foldl_max_self (a : ℚ) : ∀ m, List.foldl max a (List.replicate m a) = a
  | 0 => rfl
  | m + 1 => by
    rw [List.replicate_succ, List.foldl_cons, max_self]
    exact foldl_max_self a m

/-- Maximum of a nonempty constant column. -/
lemma listMax_replicate (m : ℕ) (hm : 0 < m) (a : ℚ) :
    listMax (List.replicate m a) = a := by
  cases m with
  | zero => exact absurd hm (by simp)
  | succ k =>
    rw [List.replicate_succ]
    simp only [listMax]
    exact foldl_max_self a k

/-- Folding `min` of a value over copies of itself changes nothing. -/
lemma foldl_min_self (a : ℚ) : ∀ m, List.foldl min a (List.replicate m a) = a
  | 0 => rfl
  | m + 1 => by
    rw [List.replicate_succ, List.foldl_cons, min_self]
    exact foldl_min_self a m

/-- Minimum of a nonempty constant column. -/
lemma listMin_replicate (m : ℕ) (hm : 0 < m) (a : ℚ) :
    listMin (List.replicate m a) = a := by
  cases m with
  | zero => exact absurd hm (by simp)
  | succ k =>
    rw [List.replicate_succ]
    simp only [listMin]
    exact foldl_min_self a k

/-- Last entry of a nonempty constant column. -/
lemma getLastD_replicate (a d : ℚ) : ∀ m, 0 < m →
    (List.replicate m a).getLastD d = a
  | m + 1, _ => by
    rw [List.replicate_succ, List.getLastD_cons]
    cases m with
    | zero => rfl
    | succ k => exact getLastD_replicate a a (k + 1) (Nat.succ_pos k)

/-- A flat equity curve has zero total return. -/
lemma total_return_replicate (n : ℕ) (hn : 0 < n) (cap : ℚ) (hcap : cap ≠ 0) :
    total_return (List.replicate n cap) cap = 0 := by
  rw [total_return, getLastD_replicate cap 0 n hn, div_self hcap]
  ring

/-- Prefixes of a constant column are constant columns. -/
lemma take_replicate_min (a : ℚ) : ∀ (m n : ℕ),
    (List.replicate n a).take m = List.replicate (min m n) a
  | 0, n => by simp
  | m + 1, 0 => by simp
  | m + 1, n + 1 => by
    rw [List.replicate_succ, List.take_succ_cons, take_replicate_min a m n,
      Nat.succ_min_succ, List.replicate_succ]

/-- Every drawdown entry of a flat equity curve is 0. -/
lemma drawdownAt_replicate (n : ℕ) (cap : ℚ) (t : ℕ) (ht : t < n) :
    drawdownAt (List.replicate n cap) t = 0 := by
  have h1 : (List.replicate n cap).take (t + 1) =
      List.replicate (min (t + 1) n) cap := take_replicate_min cap (t + 1) n
  have h2 : 0 < min (t + 1) n :=
    lt_min (Nat.succ_pos t) (Nat.pos_of_ne_zero (by omega))
  rw [drawdownAt, h1, listMax_replicate _ h2, getD_replicate _ _ _ _ ht]
  simp

/-- A flat equity curve has zero maximum drawdown. -/
lemma max_drawdown_replicate (n : ℕ) (hn : 0 < n) (cap : ℚ) :
    max_drawdown (List.replicate n cap) = 0 := by
  have hdd : (List.range (List.replicate n cap).length).map
      (drawdownAt (List.replicate n cap)) = List.replicate n 0 := by
    apply List.eq_replicate_iff.2
    constructor
    · simp
    · intro b hb
      simp only [List.mem_map, List.mem_range, List.length_replicate] at hb
      obtain ⟨t, ht, rfl⟩ := hb
      exact drawdownAt_replicate n cap t ht
  rw [max_drawdown, hdd, listMin_replicate n hn]

/-- C5: on a constant price series of length at least 1, with valid thresholds,
positive capital and non-negative fee rate, the indicator is 50 at every step,
no Buy or Sell signal fires, the equity curve is constant at the initial
capital, the total return is 0 and the maximum drawdown is 0. -/
theorem constant_series_neutral (n : ℕ) (hn : 0 < n) (c : ℚ) (period : ℕ)
    (rsi_overbought rsi_oversold initial_capital fee_percentage : ℚ)
    (hos : 0 < rsi_oversold) (hoo : rsi_oversold < rsi_overbought)
    (hob : rsi_overbought < 100) (hcap : 0 < initial_capital)
    (hfee : 0 ≤ fee_percentage) :
    calculate_rsi period (List.replicate n c) = List.replicate n 50 ∧
    generate_signals rsi_overbought rsi_oversold
        (calculate_rsi period (List.replicate n c)) = List.replicate n 0 ∧
    (backtestRows (List.replicate n c)
        (generate_signals rsi_overbought rsi_oversold
          (calculate_rsi period (List.replicate n c)))
        initial_capital fee_percentage).map StepRecord.portfolioValue =
      List.replicate n initial_capital ∧
    total_return
        ((backtestRows (List.replicate n c)
          (generate_signals rsi_overbought rsi_oversold
            (calculate_rsi period (List.replicate n c)))
          initial_capital fee_percentage).map StepRecord.portfolioValue)
        initial_capital = 0 ∧
    max_drawdown
        ((backtestRows (List.replicate n c)
          (generate_signals rsi_overbought rsi_oversold
            (calculate_rsi period (List.replicate n c)))
          initial_capital fee_percentage).map StepRecord.portfolioValue) = 0 := by
  have h1 := calculate_rsi_replicate period n c
  have h2 : generate_signals rsi_overbought rsi_oversold
      (calculate_rsi period (List.replicate n c)) = List.replicate n 0 := by
    rw [h1]
    exact generate_signals_replicate_50 rsi_overbought rsi_oversold n
  have h3 : (backtestRows (List.replicate n c)
      (generate_signals rsi_overbought rsi_oversold
        (calculate_rsi period (List.replicate n c)))
      initial_capital fee_percentage).map StepRecord.portfolioValue =
      List.replicate n initial_capital := by
    rw [h2]
    unfold backtestRows
    simpa using backtestAux_all_hold fee_percentage (List.replicate n c) n
      initial_capital 0 0 initial_capital
  refine ⟨h1, h2, h3, ?_, ?_⟩
  · rw [h3]
    exact total_return_replicate n hn initial_capital hcap.ne'
  · rw [h3]
    exact max_drawdown_replicate n hn initial_capital

/-- Witness for C5 on a two-day flat series at price 7. -/
theorem constant_series_neutral_witness :
    0 < 2 ∧ (0 : ℚ) < 30 ∧ (30 : ℚ) < 70 ∧ (70 : ℚ) < 100 ∧ (0 : ℚ) < 100 ∧
      (0 : ℚ) ≤ 1 / 100 ∧
      (calculate_rsi 14 (List.replicate 2 7) = List.replicate 2 50 ∧
        generate_signals 70 30 (calculate_rsi 14 (List.replicate 2 7)) =
          List.replicate 2 0 ∧
        (backtestRows (List.replicate 2 7)
            (generate_signals 70 30 (calculate_rsi 14 (List.replicate 2 7)))
            100 (1 / 100)).map StepRecord.portfolioValue =
          List.replicate 2 100 ∧
        total_return
            ((backtestRows (List.replicate 2 7)
              (generate_signals 70 30 (calculate_rsi 14 (List.replicate 2 7)))
              100 (1 / 100)).map StepRecord.portfolioValue) 100 = 0 ∧
        max_drawdown
            ((backtestRows (List.replicate 2 7)
              (generate_signals 70 30 (calculate_rsi 14 (List.replicate 2 7)))
              100 (1 / 100)).map StepRecord.portfolioValue) = 0) :=
  ⟨by norm_num, by norm_num, by norm_num, by norm_num, by norm_num, by norm_num,
    constant_series_neutral 2 (by norm_num) 7 14 70 30 100 (1 / 100)
      (by norm_num) (by norm_num) (by norm_num) (by norm_num) (by norm_num)⟩

/-! ## C6 and C7: run orchestration -/

/-- C6: any configuration with non-positive capital, negative fee rate, a
threshold outside `(0,100)`, or oversold at or above overbought is rejected as
an input error, and the outcome is the same whatever the data provider would
have returned — the rejection happens before any retrieved data is
consulted, so no indicator, signal or simulation computation runs. -/
theorem invalid_params_rejected (initial_capital fee_entry rsi_overbought rsi_oversold : ℚ)
    (hbad : initial_capital ≤ 0 ∨ fee_entry < 0 ∨
      ¬(0 < rsi_overbought ∧ rsi_overbought < 100) ∨
      ¬(0 < rsi_oversold ∧ rsi_oversold < 100) ∨ rsi_overbought ≤ rsi_oversold) :
    ∃ msg, ∀ fetched : List ℚ,
      run_backtest initial_capital fee_entry rsi_overbought rsi_oversold fetched =
        RunOutcome.inputError msg := by
  have key : ∀ msg, validateParams initial_capital fee_entry rsi_overbought
      rsi_oversold = some msg → ∀ fetched : List ℚ,
      run_backtest initial_capital fee_entry rsi_overbought rsi_oversold fetched =
        RunOutcome.inputError msg := by
    intro msg hm fetched
    simp [run_backtest, hm]
  by_cases h1 : initial_capital ≤ 0
  · exact ⟨"Starting capital must be positive.", key _ (by simp [validateParams, h1])⟩
  · by_cases h2 : fee_entry / 100 < 0
    · exact ⟨"Fee percentage cannot be negative.",
        key _ (by simp [validateParams, h1, h2])⟩
    · by_cases h3 : 0 < rsi_overbought ∧ rsi_overbought < 100
      · by_cases h4 : 0 < rsi_oversold ∧ rsi_oversold < 100
        · by_cases h5 : rsi_overbought ≤ rsi_oversold
          · exact ⟨"RSI Oversold level must be less than RSI Overbought level.",
              key _ (by simp [validateParams, h1, h2, h3, h4, h5])⟩
          · rcases hbad with h | h | h | h | h
            · exact absurd h h1
            · exact absurd (div_neg_of_neg_of_pos h (by norm_num)) h2
            · exact absurd h3 h
            · exact absurd h4 h
            · exact absurd h h5
        · exact ⟨"RSI Oversold level must be between 0 and 100.",
            key _ (by simp [validateParams, h1, h2, h3, h4])⟩
      · exact ⟨"RSI Overbought level must be between 0 and 100.",
          key _ (by simp [validateParams, h1, h2, h3])⟩

/-- Witness for C6: the inverted thresholds oversold 70 / overbought 30 from
the spec's validation scenario. -/
theorem invalid_params_rejected_witness :
    ((1000 : ℚ) ≤ 0 ∨ (0 : ℚ) < 0 ∨ ¬((0 : ℚ) < 30 ∧ (30 : ℚ) < 100) ∨
      ¬((0 : ℚ) < 70 ∧ (70 : ℚ) < 100) ∨ (30 : ℚ) ≤ 70) ∧
    ∃ msg, ∀ fetched : List ℚ,
      run_backtest 1000 0 30 70 fetched = RunOutcome.inputError msg :=
  ⟨Or.inr (Or.inr (Or.inr (Or.inr (by norm_num)))),
    invalid_params_rejected 1000 0 30 70
      (Or.inr (Or.inr (Or.inr (Or.inr (by norm_num)))))⟩

/-- C7: with a valid configuration and an empty retrieved series, the run
short-circuits to the no-data outcome, which is neither the input-error
outcome nor a successful simulation — the indicator, signal generator,
simulator and analyzer are never reached. -/
theorem empty_series_no_data (initial_capital fee_entry rsi_overbought rsi_oversold : ℚ)
    (hcap : 0 < initial_capital) (hfee : 0 ≤ fee_entry)
    (hob1 : 0 < rsi_overbought) (hob2 : rsi_overbought < 100)
    (hos1 : 0 < rsi_oversold) (hos2 : rsi_oversold < 100)
    (hlt : rsi_oversold < rsi_overbought) :
    run_backtest initial_capital fee_entry rsi_overbought rsi_oversold [] =
        RunOutcome.noData ∧
      (∀ msg, run_backtest initial_capital fee_entry rsi_overbought rsi_oversold [] ≠
        RunOutcome.inputError msg) ∧
      (∀ records, run_backtest initial_capital fee_entry rsi_overbought rsi_oversold [] ≠
        RunOutcome.success records) := by
  have hfe : ¬(fee_entry / 100 < 0) := not_lt.mpr (by positivity)
  have hv : validateParams initial_capital fee_entry rsi_overbought rsi_oversold =
      none := by
    simp [validateParams, not_le.mpr hcap, hfe, hob1, hob2, hos1, hos2,
      not_le.mpr hlt]
  have hrun : run_backtest initial_capital fee_entry rsi_overbought rsi_oversold [] =
      RunOutcome.noData := by
    simp [run_backtest, hv]
  refine ⟨hrun, ?_, ?_⟩
  · intro msg
    rw [hrun]
    intro hcontra
    cases hcontra
  · intro records
    rw [hrun]
    intro hcontra
    cases hcontra

/-- Witness for C7 with the default thresholds and an empty fetched series. -/
theorem empty_series_no_data_witness :
    (0 : ℚ) < 1000 ∧ (0 : ℚ) ≤ 0 ∧ (0 : ℚ) < 70 ∧ (70 : ℚ) < 100 ∧
      (0 : ℚ) < 30 ∧ (30 : ℚ) < 100 ∧ (30 : ℚ) < 70 ∧
      (run_backtest 1000 0 70 30 [] = RunOutcome.noData ∧
        (∀ msg, run_backtest 1000 0 70 30 [] ≠ RunOutcome.inputError msg) ∧
        (∀ records, run_backtest 1000 0 70 30 [] ≠ RunOutcome.success records)) :=
  ⟨by norm_num, le_refl 0, by norm_num, by norm_num, by norm_num, by norm_num,
    by norm_num,
    empty_series_no_data 1000 0 70 30 (by norm_num) (le_refl 0) (by norm_num)
      (by norm_num) (by norm_num) (by norm_num) (by norm_num)⟩

/-! ## C8: fee sensitivity -/

/-- Coupled single-step comparison: if a fee-paying run and a zero-fee run see
the same price and signal, enter the day with the same holdings and exit it
with the same holdings, then the fee-paying run exits with no more cash. -/
lemma backtestStep_cash_coupled (f p : ℚ) (s : ℤ) (h : ℤ) (cF c0 fF f0 : ℚ)
    (pF p0 : ℤ) (vF v0 : ℚ) (hf : 0 ≤ f) (hp : 0 < p) (hcc : cF ≤ c0)
    (hhold : (backtestStep f p s cF h fF pF vF).holdings =
      (backtestStep 0 p s c0 h f0 p0 v0).holdings) :
    (backtestStep f p s cF h fF pF vF).cash ≤
      (backtestStep 0 p s c0 h f0 p0 v0).cash := by
  by_cases h1 : s = 1 ∧ h = 0
  · have hmono : ⌊cF / p⌋ ≤ ⌊c0 / p⌋ :=
      Int.floor_mono ((div_le_div_iff_of_pos_right hp).mpr hcc)
    by_cases h2F : 0 < ⌊cF / p⌋
    · have h20 : 0 < ⌊c0 / p⌋ := lt_of_lt_of_le h2F hmono
      have heq : ⌊cF / p⌋ = ⌊c0 / p⌋ := by
        have hh := hhold
        simp [backtestStep, h1.1, h1.2, h2F, h20] at hh
        exact hh
      have hfee : 0 ≤ (⌊c0 / p⌋ : ℚ) * p * f :=
        mul_nonneg (mul_nonneg (by exact_mod_cast h20.le) hp.le) hf
      simp [backtestStep, h1.1, h1.2, h2F, h20, heq]
      linarith
    · by_cases h20 : 0 < ⌊c0 / p⌋
      · exfalso
        have hh := hhold
        simp [backtestStep, h1.1, h1.2, h2F, h20] at hh
        omega
      · simpa [backtestStep, h1.1, h1.2, h2F, h20] using hcc
  · by_cases h3 : s = -1 ∧ 0 < h
    · have hfee : 0 ≤ (h : ℚ) * p * f :=
        mul_nonneg (mul_nonneg (by exact_mod_cast h3.2.le) hp.le) hf
      simp [backtestStep, h1, h3.1, h3.2]
      linarith
    · simpa [backtestStep, h1, h3] using hcc

/-- Coupled fold comparison: when the two runs hold identical share counts at
every step, every recorded portfolio value of the fee-paying run is bounded by
the zero-fee run's value at the same step. -/
lemma backtestAux_pv_coupled (f : ℚ) (hf : 0 ≤ f) :
    ∀ (ps : List ℚ) (ss : List ℤ) (h : ℤ) (cF c0 fF f0 : ℚ) (pF p0 : ℤ) (vF v0 : ℚ),
    (∀ x ∈ ps, 0 < x) → cF ≤ c0 →
    (backtestAux f ps ss cF h fF pF vF).map StepRecord.holdings =
      (backtestAux 0 ps ss c0 h f0 p0 v0).map StepRecord.holdings →
    List.Forall₂ (· ≤ ·)
      ((backtestAux f ps ss cF h fF pF vF).map StepRecord.portfolioValue)
      ((backtestAux 0 ps ss c0 h f0 p0 v0).map StepRecord.portfolioValue)
  | [], ss, h, cF, c0, fF, f0, pF, p0, vF, v0, _, _, _ => by
    simp [backtestAux]
  | p :: ps, [], h, cF, c0, fF, f0, pF, p0, vF, v0, _, _, _ => by
    simp [backtestAux]
  | p :: ps, s :: ss, h, cF, c0, fF, f0, pF, p0, vF, v0, hpos, hcc, hhold => by
    simp only [backtestAux, List.map_cons] at hhold ⊢
    obtain ⟨hhead, htail⟩ := List.cons.inj hhold
    have hcash := backtestStep_cash_coupled f p s h cF c0 fF f0 pF p0 vF v0 hf
      (hpos p (by simp)) hcc hhead
    rw [← hhead] at htail ⊢
    refine List.Forall₂.cons ?_ ?_
    · rw [backtestStep_pv, backtestStep_pv, hhead]
      exact add_le_add_right hcash _
    · exact backtestAux_pv_coupled f hf ps ss
        (backtestStep f p s cF h fF pF vF).holdings
        (backtestStep f p s cF h fF pF vF).cash
        (backtestStep 0 p s c0 h f0 p0 v0).cash
        (backtestStep f p s cF h fF pF vF).totalFees
        (backtestStep 0 p s c0 h f0 p0 v0).totalFees
        ((backtestStep f p s cF h fF pF vF).position.getD pF)
        ((backtestStep 0 p s c0 h f0 p0 v0).position.getD p0)
        (backtestStep f p s cF h fF pF vF).portfolioValue
        (backtestStep 0 p s c0 h f0 p0 v0).portfolioValue
        (fun x hx => hpos x (List.mem_cons_of_mem p hx)) hcash htail

/-- A pointwise bound between two columns transfers to their last entries. -/
lemma forall2_le_getLastD : ∀ {l1 l2 : List ℚ}, List.Forall₂ (· ≤ ·) l1 l2 →
    ∀ (d1 d2 : ℚ), d1 ≤ d2 → l1.getLastD d1 ≤ l2.getLastD d2 := by
  intro l1 l2 hf
  induction hf with
  | nil => intro d1 d2 hd; simpa using hd
  | cons hab htail ih =>
    intro d1 d2 hd
    rw [List.getLastD_cons, List.getLastD_cons]
    exact ih _ _ hab

end RSIBacktest
namespace RSIBacktest

set_option maxHeartbeats 1600000 in
/-- C8 counterexample: on closes `[31,29,30,35,30,28,50,1]` with period 2 and
thresholds 70/30 the signals are buy (t2), sell (t4), buy (t6), sell (t7).
With capital 100, both the zero-fee run and the run at fee rate 1/10 execute
all four trades (every iteration appends to `positions`, so neither run hits
the skipped-append `ValueError` and `backtest_strategy` returns normally for
both), yet the fee run buys only 1 share at t6 where the zero-fee run buys 2,
so after the crash to 1 it ends at 279/10 while the zero-fee run ends at 2:
the claimed inequality fails on a pair of completed runs. -/
theorem fee_can_beat_zero_fee_counterexample :
    (0 : ℚ) < 1 / 10 ∧
    backtest_strategy [31, 29, 30, 35, 30, 28, 50, 1]
        (generate_signals 70 30 (calculate_rsi 2 [31, 29, 30, 35, 30, 28, 50, 1]))
        100 (1 / 10) =
      Except.ok (backtestRows [31, 29, 30, 35, 30, 28, 50, 1]
        (generate_signals 70 30 (calculate_rsi 2 [31, 29, 30, 35, 30, 28, 50, 1]))
        100 (1 / 10)) ∧
    backtest_strategy [31, 29, 30, 35, 30, 28, 50, 1]
        (generate_signals 70 30 (calculate_rsi 2 [31, 29, 30, 35, 30, 28, 50, 1]))
        100 0 =
      Except.ok (backtestRows [31, 29, 30, 35, 30, 28, 50, 1]
        (generate_signals 70 30 (calculate_rsi 2 [31, 29, 30, 35, 30, 28, 50, 1]))
        100 0) ∧
    ((backtestRows [31, 29, 30, 35, 30, 28, 50, 1]
        (generate_signals 70 30 (calculate_rsi 2 [31, 29, 30, 35, 30, 28, 50, 1]))
        100 0).map StepRecord.trade).getD 2 0 = 1 ∧
    ((backtestRows [31, 29, 30, 35, 30, 28, 50, 1]
        (generate_signals 70 30 (calculate_rsi 2 [31, 29, 30, 35, 30, 28, 50, 1]))
        100 (1 / 10)).map StepRecord.trade).getD 2 0 = 1 ∧
    ((backtestRows [31, 29, 30, 35, 30, 28, 50, 1]
        (generate_signals 70 30 (calculate_rsi 2 [31, 29, 30, 35, 30, 28, 50, 1]))
        100 (1 / 10)).map StepRecord.portfolioValue).getLastD 0 = 279 / 10 ∧
    ((backtestRows [31, 29, 30, 35, 30, 28, 50, 1]
        (generate_signals 70 30 (calculate_rsi 2 [31, 29, 30, 35, 30, 28, 50, 1]))
        100 0).map StepRecord.portfolioValue).getLastD 0 = 2 ∧
    ¬(((backtestRows [31, 29, 30, 35, 30, 28, 50, 1]
        (generate_signals 70 30 (calculate_rsi 2 [31, 29, 30, 35, 30, 28, 50, 1]))
        100 (1 / 10)).map StepRecord.portfolioValue).getLastD 0 ≤
      ((backtestRows [31, 29, 30, 35, 30, 28, 50, 1]
        (generate_signals 70 30 (calculate_rsi 2 [31, 29, 30, 35, 30, 28, 50, 1]))
        100 0).map StepRecord.portfolioValue).getLastD 0) := by
  have hA : ((backtestRows [31, 29, 30, 35, 30, 28, 50, 1]
      (generate_signals 70 30 (calculate_rsi 2 [31, 29, 30, 35, 30, 28, 50, 1]))
      100 (1 / 10)).map StepRecord.portfolioValue).getLastD 0 = 279 / 10 := by
    norm_num [backtestRows, backtestAux, backtestStep, generate_signals,
      signalAt, calculate_rsi, rsiAt, rollingMean, windowAt, gainList, lossList,
      List.range_succ]
  have hB : ((backtestRows [31, 29, 30, 35, 30, 28, 50, 1]
      (generate_signals 70 30 (calculate_rsi 2 [31, 29, 30, 35, 30, 28, 50, 1]))
      100 0).map StepRecord.portfolioValue).getLastD 0 = 2 := by
    norm_num [backtestRows, backtestAux, backtestStep, generate_signals,
      signalAt, calculate_rsi, rsiAt, rollingMean, windowAt, gainList, lossList,
      List.range_succ]
  refine ⟨by norm_num, ?_, ?_, ?_, ?_, hA, hB, ?_⟩
  · norm_num [backtest_strategy, positionsColumn, backtestRows, backtestAux,
      backtestStep, generate_signals, signalAt, calculate_rsi, rsiAt,
      rollingMean, windowAt, gainList, lossList, List.range_succ,
      List.filterMap_cons]
  · norm_num [backtest_strategy, positionsColumn, backtestRows, backtestAux,
      backtestStep, generate_signals, signalAt, calculate_rsi, rsiAt,
      rollingMean, windowAt, gainList, lossList, List.range_succ,
      List.filterMap_cons]
  · norm_num [backtestRows, backtestAux, backtestStep, generate_signals,
      signalAt, calculate_rsi, rsiAt, rollingMean, windowAt, gainList, lossList,
      List.range_succ]
  · norm_num [backtestRows, backtestAux, backtestStep, generate_signals,
      signalAt, calculate_rsi, rsiAt, rollingMean, windowAt, gainList, lossList,
      List.range_succ]
  · rw [hA, hB]
    norm_num

/-- C8 amended: with a positive fee rate, positive closes, both runs
completing normally (no skipped-append `ValueError`), at least one trade in
the zero-fee run, and the proviso (forced by the counterexample) that the two
runs hold the same share count at every step, the fee run's final portfolio
value is at most the zero-fee run's final portfolio value. -/
theorem fee_sensitivity_amended (closes : List ℚ) (signals : List ℤ)
    (initial_capital fee_percentage : ℚ) (hf : 0 < fee_percentage)
    (hpos : ∀ x ∈ closes, 0 < x)
    (hokF : backtest_strategy closes signals initial_capital fee_percentage =
      Except.ok (backtestRows closes signals initial_capital fee_percentage))
    (hok0 : backtest_strategy closes signals initial_capital 0 =
      Except.ok (backtestRows closes signals initial_capital 0))
    (htrade : ∃ t, ((backtestRows closes signals initial_capital 0).map
      StepRecord.trade).getD t 0 ≠ 0)
    (hhold : (backtestRows closes signals initial_capital
        fee_percentage).map StepRecord.holdings =
      (backtestRows closes signals initial_capital 0).map
        StepRecord.holdings) :
    ((backtestRows closes signals initial_capital fee_percentage).map
        StepRecord.portfolioValue).getLastD initial_capital ≤
      ((backtestRows closes signals initial_capital 0).map
        StepRecord.portfolioValue).getLastD initial_capital := by
  have h2 := backtestAux_pv_coupled fee_percentage hf.le closes signals 0
    initial_capital initial_capital 0 0 0 0 initial_capital initial_capital
    hpos le_rfl hhold
  exact forall2_le_getLastD h2 _ _ le_rfl

/-- Witness for the amended C8: one shared entry held to the end. -/
theorem fee_sensitivity_amended_witness :
    (0 : ℚ) < 1 / 10 ∧ (∀ x ∈ ([10, 20] : List ℚ), 0 < x) ∧
    (backtest_strategy [10, 20] [1, 0] 10 (1 / 10) =
      Except.ok (backtestRows [10, 20] [1, 0] 10 (1 / 10))) ∧
    (backtest_strategy [10, 20] [1, 0] 10 0 =
      Except.ok (backtestRows [10, 20] [1, 0] 10 0)) ∧
    (((backtestRows [10, 20] [1, 0] 10 0).map StepRecord.trade).getD 0 0 ≠ 0) ∧
    ((backtestRows [10, 20] [1, 0] 10 (1 / 10)).map StepRecord.holdings =
      (backtestRows [10, 20] [1, 0] 10 0).map StepRecord.holdings) ∧
    ((backtestRows [10, 20] [1, 0] 10 (1 / 10)).map
        StepRecord.portfolioValue).getLastD 10 ≤
      ((backtestRows [10, 20] [1, 0] 10 0).map
        StepRecord.portfolioValue).getLastD 10 := by
  have h1 : backtest_strategy [10, 20] [1, 0] 10 (1 / 10) =
      Except.ok (backtestRows [10, 20] [1, 0] 10 (1 / 10)) := by
    norm_num [backtest_strategy, positionsColumn, backtestRows, backtestAux,
      backtestStep, List.filterMap_cons]
  have h2 : backtest_strategy [10, 20] [1, 0] 10 0 =
      Except.ok (backtestRows [10, 20] [1, 0] 10 0) := by
    norm_num [backtest_strategy, positionsColumn, backtestRows, backtestAux,
      backtestStep, List.filterMap_cons]
  have h3 : ((backtestRows [10, 20] [1, 0] 10 0).map
      StepRecord.trade).getD 0 0 ≠ 0 := by
    norm_num [backtestRows, backtestAux, backtestStep]
  have h4 : (backtestRows [10, 20] [1, 0] 10 (1 / 10)).map
      StepRecord.holdings =
      (backtestRows [10, 20] [1, 0] 10 0).map StepRecord.holdings := by
    norm_num [backtestRows, backtestAux, backtestStep]
  exact ⟨by norm_num, by norm_num, h1, h2, h3, h4,
    fee_sensitivity_amended [10, 20] [1, 0] 10 (1 / 10) (by norm_num)
      (by norm_num) h1 h2 ⟨0, h3⟩ h4⟩

end RSIBacktest

